import Mathlib

/-!
Shallow embedding of the DBD repository sources
`src/model/network/se_wideresnet.py` and `src/data/backdoor.py`.

Two complementary semantic levels are used, both translated from the source:

* a shape semantics on `List Nat` tensor shapes, mirroring the shape
  behaviour of each torch layer that the network composes (convolutions,
  batch norm, pooling, squeeze, slicing, concatenation), with `Option`
  for the framework's fatal shape errors;
* a value-level dataflow semantics for the residual blocks, in which the
  individual torch modules (`bn1`, `conv1`, ...) are opaque functions and
  only the composition performed by `forward` is modelled, plus an exact
  real-valued semantics for the attention pipelines, whose last stage is
  a sigmoid.
-/

/-! ## Shape semantics of the torch layers used by `se_wideresnet.py` -/

/-- Output spatial extent of a convolution: `floor((size + 2*p - k)/s) + 1`. -/
def convOut (size k s p : Nat) : Nat := (size + 2 * p - k) / s + 1

/-- Shape behaviour of `nn.Conv2d(inP, outP, kernel_size=k, stride=s, padding=p)`:
defined on 4-d inputs whose channel axis matches `inP` and whose padded spatial
extent is at least the kernel size; anything else is a fatal framework error. -/
def conv2dShape (inP outP k s p : Nat) (sh : List Nat) : Option (List Nat) :=
  match sh with
  | [b, c, h, w] =>
      if c = inP ∧ k ≤ h + 2 * p ∧ k ≤ w + 2 * p then
        some [b, outP, convOut h k s p, convOut w k s p]
      else none
  | _ => none

/-- `torch.add` of two feature maps: the shapes produced by the residual and
shortcut paths always coincide at every call site in this network, so the
broadcast-free exact-match rule is the behaviour exercised by the code. -/
def addShape (a b : List Nat) : Option (List Nat) :=
  if a = b then some b else none

/-- Shape behaviour of `BasicBlock.forward`: `bn1`/`relu1`/`bn2`/`relu2` and
dropout preserve shapes, so the shape is determined by `conv1`, `conv2`, the
optional `convShortcut` and the final `torch.add`. -/
def basicBlockShape (inP outP stride : Nat) (s : List Nat) : Option (List Nat) :=
  (conv2dShape inP outP 3 stride 1 s).bind fun r1 =>
  (conv2dShape outP outP 3 1 1 r1).bind fun r2 =>
  (if inP = outP then some s else conv2dShape inP outP 1 stride 0 s).bind fun sc =>
  addShape sc r2

/-- The gating module selected by `CDBasicBlock.__init__` from `attn_var`:
variant 1 is the squeeze-and-excite pair of 1x1 convolutions through
`out_planes // 16` channels, variant 2 the depthwise (`groups=out_planes`)
1x1 convolution, variant 3 the dense 1x1 convolution.  Any other value of
`attn_var` falls through every branch and no module is created. -/
inductive AttnModule where
  | squeezeExcite (reduced : Nat)
  | depthwise
  | dense
deriving DecidableEq

/-- Conditional construction of `self.attn` in `CDBasicBlock.__init__`. -/
def mkAttn (attnVar outP : Nat) : Option AttnModule :=
  if attnVar = 1 then some (AttnModule.squeezeExcite (outP / 16))
  else if attnVar = 2 then some AttnModule.depthwise
  else if attnVar = 3 then some AttnModule.dense
  else none

/-- `nn.AdaptiveAvgPool2d(1)`: a 4-d map is pooled to spatial extent 1x1. -/
def avgPoolShape (s : List Nat) : Option (List Nat) :=
  match s with
  | [b, c, _, _] => some [b, c, 1, 1]
  | _ => none

/-- Shape behaviour of `self.attn(out)`.  When `attn_var` selected no module,
the attribute access in `forward` fails, modelled as `none`. -/
def attnShape (attnVar outP : Nat) (s : List Nat) : Option (List Nat) :=
  match mkAttn attnVar outP with
  | none => none
  | some (AttnModule.squeezeExcite reduced) =>
      (avgPoolShape s).bind fun p =>
      (conv2dShape outP reduced 1 1 0 p).bind fun q =>
      conv2dShape reduced outP 1 1 0 q
  | some AttnModule.depthwise =>
      (avgPoolShape s).bind fun p => conv2dShape outP outP 1 1 0 p
  | some AttnModule.dense =>
      (avgPoolShape s).bind fun p => conv2dShape outP outP 1 1 0 p

/-- `out * masks` where `masks` has spatial extent 1x1: torch broadcasts the
gate over the spatial axes, so the result keeps the shape of `out`. -/
def mulBroadcastShape (out masks : List Nat) : Option (List Nat) :=
  match out, masks with
  | [b, c, h, w], [b2, c2, 1, 1] =>
      if b2 = b ∧ c2 = c then some [b, c, h, w] else none
  | _, _ => none

/-- Shape behaviour of `CDBasicBlock.forward`: returns the shapes of the pair
`(out, masks)` that the method returns. -/
def cdBasicBlockShape (attnVar inP outP stride : Nat) (s : List Nat) :
    Option (List Nat × List Nat) :=
  (conv2dShape inP outP 3 stride 1 s).bind fun r1 =>
  (conv2dShape outP outP 3 1 1 r1).bind fun r2 =>
  (attnShape attnVar outP r2).bind fun masks =>
  (mulBroadcastShape r2 masks).bind fun gated =>
  (if inP = outP then some s else conv2dShape inP outP 1 stride 0 s).bind fun sc =>
  (addShape sc gated).map fun o => (o, masks)

/-- `Tensor.squeeze()` with no argument removes every axis of extent 1. -/
def squeezeShape : List Nat → List Nat
  | [] => []
  | d :: rest => if d = 1 then squeezeShape rest else d :: squeezeShape rest

/-- Python truncation toward zero, `int(q)` on a nonnegative-or-negative
rational produced by float arithmetic. -/
def pyInt (q : ℚ) : Int := if q < 0 then -(⌊-q⌋) else ⌊q⌋

/-- Effective width of the Python slice `[0:stop]` of an axis of extent
`len`: a negative stop counts from the end, a too-large stop is clamped. -/
def pySliceStop (len : Nat) (stop : Int) : Nat :=
  if stop < 0 then ((len : Int) + stop).toNat else min stop.toNat len

/-- Shape behaviour of `mask[:, 0:stop]`: needs at least two axes. -/
def sliceCols (stop : Int) (s : List Nat) : Option (List Nat) :=
  match s with
  | b :: c :: rest => some (b :: pySliceStop c stop :: rest)
  | _ => none

/-- One step of `torch.cat(_, dim=1)`: both shapes must agree everywhere but
on axis 1, which is summed. -/
def catStep (acc t : List Nat) : Option (List Nat) :=
  match acc, t with
  | b0 :: c0 :: t0, b1 :: c1 :: t1 =>
      if b1 = b0 ∧ t1 = t0 then some (b0 :: (c0 + c1) :: t0) else none
  | _, _ => none

/-- Accumulating loop of `torch.cat(_, dim=1)` over the remaining shapes. -/
def catDim1Go (acc : List Nat) : List (List Nat) → Option (List Nat)
  | [] => some acc
  | t :: rest => (catStep acc t).bind fun acc2 => catDim1Go acc2 rest

/-- `torch.cat(shapes, dim=1)`: fails on an empty list and on tensors with
fewer than two axes (axis 1 out of range). -/
def catDim1 : List (List Nat) → Option (List Nat)
  | [] => none
  | s :: rest => if 2 ≤ s.length then catDim1Go s rest else none

/-- Python truthiness trick `cond and a or b` used by the stage builders:
yields `a` when `cond` holds and `a` is non-zero, else `b`. -/
def pyTruthyAndOr (cond : Bool) (a b : Nat) : Nat :=
  if cond ∧ a ≠ 0 then a else b

/-- The per-block `(in_planes, out_planes, stride)` configurations built by
`CDWideResNet._make_layer` and `_make_cd_layer`: block `i = 0` performs the
channel/stride transition, the rest use `out_planes` and stride 1. -/
def makeLayerCfgs (n inP outP stride : Nat) : List (Nat × Nat × Nat) :=
  (List.range n).map fun i =>
    (pyTruthyAndOr (i = 0) inP outP, outP, pyTruthyAndOr (i = 0) stride 1)

/-- Shape behaviour of an `nn.Sequential` of `BasicBlock`s. -/
def stageShape : List (Nat × Nat × Nat) → List Nat → Option (List Nat)
  | [], s => some s
  | c :: rest, s =>
      match basicBlockShape c.1 c.2.1 c.2.2 s with
      | none => none
      | some s2 => stageShape rest s2

/-- Shape behaviour of the stage-3 loop in `CDWideResNet.forward`: each block
yields `(out, mask)`, the mask is squeezed, truncated to its first
`int(64 * widen_factor * partial)` channels when `partial < 1`, and collected. -/
def stage3Collect (attnVar : Nat) (pfrac : ℚ) (widenFactor : Nat) :
    List (Nat × Nat × Nat) → List Nat → List (List Nat) →
    Option (List Nat × List (List Nat))
  | [], s, acc => some (s, acc)
  | c :: rest, s, acc =>
      (cdBasicBlockShape attnVar c.1 c.2.1 c.2.2 s).bind fun om =>
      (if pfrac < 1 then
          sliceCols (pyInt (64 * (widenFactor : ℚ) * pfrac)) (squeezeShape om.2)
        else some (squeezeShape om.2)).bind fun collected =>
      stage3Collect attnVar pfrac widenFactor rest om.1 (acc ++ [collected])

/-- The per-block collected gate width in the stage-3 loop: the full channel
count when `partial >= 1`, else the truncated prefix width. -/
def collectW (widenFactor : Nat) (pfrac : ℚ) : Nat :=
  if pfrac < 1 then (⌊64 * (widenFactor : ℚ) * pfrac⌋).toNat else 64 * widenFactor

/-- `nn.BatchNorm2d(features)`: preserves the shape, requires a matching
channel axis. -/
def bnShape (features : Nat) (s : List Nat) : Option (List Nat) :=
  match s with
  | [b, c, h, w] => if c = features then some [b, c, h, w] else none
  | _ => none

/-- `out.view(-1, ch)`: the element count must be divisible by `ch`. -/
def viewFlat (ch : Nat) (s : List Nat) : Option (List Nat) :=
  if ch ≠ 0 ∧ (s.foldl (· * ·) 1) % ch = 0 then
    some [(s.foldl (· * ·) 1) / ch, ch]
  else none

/-- `nn.Linear(inF, outF)` on a 2-d input. -/
def linearShape (inF outF : Nat) (s : List Nat) : Option (List Nat) :=
  match s with
  | [b, f] => if f = inF then some [b, outF] else none
  | _ => none

/-- The construction-time data of `CDWideResNet.__init__` that determines its
forward-pass shape behaviour. -/
structure CDWideResNet where
  numClasses : Nat
  widenFactor : Nat
  attnVar : Nat
  pfrac : ℚ
  dropRate : ℚ
  block1 : List (Nat × Nat × Nat)
  block2 : List (Nat × Nat × Nat)
  block3 : List (Nat × Nat × Nat)
  channels : Nat
deriving DecidableEq

/-- `CDWideResNet.__init__(num_classes, depth, widen_factor, drop_rate,
attn_var, partial)`: the assertion `(depth - 4) % 6 == 0` is the only
construction-time failure; `n = (depth - 4) / 6` blocks per stage, channel
widths `[16, 16*wf, 32*wf, 64*wf]`. -/
def mkCDWideResNet (numClasses : Nat) (depth : Int) (widenFactor : Nat)
    (dropRate : ℚ) (attnVar : Nat) (pfrac : ℚ) : Option CDWideResNet :=
  if (depth - 4) % 6 = 0 then
    some { numClasses := numClasses
         , widenFactor := widenFactor
         , attnVar := attnVar
         , pfrac := pfrac
         , dropRate := dropRate
         , block1 := makeLayerCfgs ((depth - 4) / 6).toNat 16 (16 * widenFactor) 1
         , block2 := makeLayerCfgs ((depth - 4) / 6).toNat (16 * widenFactor) (32 * widenFactor) 2
         , block3 := makeLayerCfgs ((depth - 4) / 6).toNat (32 * widenFactor) (64 * widenFactor) 2
         , channels := 64 * widenFactor }
  else none

/-- `CDWRN28(num_classes, widen_factor)` fixes `depth = 28` and the remaining
defaults `drop_rate = 0`, `attn_var = 1`, `partial = 1`. -/
def CDWRN28 (numClasses widenFactor : Nat) : Option CDWideResNet :=
  mkCDWideResNet numClasses 28 widenFactor 0 1 1

/-- Shape semantics of the full body of `CDWideResNet.forward`, including the
concatenated mask tensor that the body computes, binds to the local variable
`mask`, and then drops: the pair `(logits shape, mask shape)` describes
everything the body produces. -/
def cdwrnForwardInternal (net : CDWideResNet) (s : List Nat) :
    Option (List Nat × List Nat) :=
  (conv2dShape 3 16 3 1 1 s).bind fun s1 =>
  (stageShape net.block1 s1).bind fun s2 =>
  (stageShape net.block2 s2).bind fun s3 =>
  (stage3Collect net.attnVar net.pfrac net.widenFactor net.block3 s3 []).bind fun om =>
  (catDim1 om.2).bind fun mask =>
  (bnShape net.channels om.1).bind fun o1 =>
  (avgPoolShape o1).bind fun o2 =>
  (viewFlat net.channels o2).bind fun o3 =>
  (linearShape net.channels net.numClasses o3).map fun logits => (logits, mask)

/-- What `CDWideResNet.forward` actually returns: the `return logits`
statement yields a single tensor; the concatenated mask never leaves the
function. -/
def cdwrnForward (net : CDWideResNet) (s : List Nat) : Option (List Nat) :=
  (cdwrnForwardInternal net s).map Prod.fst

/-! ## Value-level dataflow semantics of the residual blocks

The individual torch modules of a block are opaque functions here; only the
composition written in `forward` is modelled.  This is the level at which the
branch structure of `BasicBlock.forward` (which tensor feeds which path)
lives. -/

/-- Dataflow of `BasicBlock.forward` over an arbitrary tensor type `T`.
`x1` is the (possibly reassigned) local `x` after the first branch, `out1`
the value bound to `out` by the `else` branch; `conv1` is applied to
`out if self.equalInOut else x`, and the final `torch.add` combines the
shortcut input with the residual path. -/
def basicBlockForward {T : Type} (equalInOut abr : Bool)
    (bn1 relu1 conv1 bn2 relu2 conv2 convShortcut : T → T)
    (dropRate : ℚ) (dropout : T → T) (add : T → T → T) (x : T) : T :=
  let x1 := if !equalInOut && abr then relu1 (bn1 x) else x
  let out1 := relu1 (bn1 x)
  let out2 := relu2 (bn2 (conv1 (if equalInOut then out1 else x1)))
  let out3 := if 0 < dropRate then dropout out2 else out2
  let out4 := conv2 out3
  add (if equalInOut then x1 else convShortcut x1) out4

/-- Batched feature maps as rational-valued functions of
(batch, channel, row, column). -/
abbrev T4 := Nat → Nat → Nat → Nat → ℚ

/-- Pointwise `torch.add` on equally shaped feature maps. -/
def t4add (a b : T4) : T4 := fun n c i j => a n c i j + b n c i j

/-- `out * masks` with `masks` of spatial extent 1x1: the single spatial
entry of the gate is broadcast over the spatial axes of `out`. -/
def t4mulBroadcast (a m : T4) : T4 := fun n c i j => a n c i j * m n c 0 0

/-- Dataflow of `CDBasicBlock.forward`: the same trunk as `basicBlockForward`
(with `bn2` and `relu2` applied in separate statements), followed by the gate
computation `masks = self.attn(out)`, the broadcast product `out * masks`,
the residual addition, and the `return out, masks` pair. -/
def cdBasicBlockForward (equalInOut abr : Bool)
    (bn1 relu1 conv1 bn2 relu2 conv2 convShortcut : T4 → T4)
    (dropRate : ℚ) (dropout : T4 → T4) (attn : T4 → T4) (x : T4) : T4 × T4 :=
  let x1 := if !equalInOut && abr then relu1 (bn1 x) else x
  let out1 := relu1 (bn1 x)
  let o1 := bn2 (conv1 (if equalInOut then out1 else x1))
  let o2 := relu2 o1
  let o3 := if 0 < dropRate then dropout o2 else o2
  let o4 := conv2 o3
  let masks := attn o4
  let o5 := t4mulBroadcast o4 masks
  let o6 := t4add (if equalInOut then x1 else convShortcut x1) o5
  (o6, masks)

/-! ## Exact real-valued semantics of the three attention pipelines

Each pipeline of `CDBasicBlock.__init__` is an `nn.Sequential` ending in
`nn.Sigmoid()`; after `nn.AdaptiveAvgPool2d(1)` every tensor has spatial
extent 1x1, so the pipelines act on per-(batch, channel) values. -/

/-- The sigmoid function computed by `nn.Sigmoid`. -/
noncomputable def sigmoid (x : ℝ) : ℝ := 1 / (1 + Real.exp (-x))

/-- `nn.AdaptiveAvgPool2d(1)` on an `H` by `W` feature map, per batch and
channel. -/
noncomputable def adaptiveAvgPool1 (H W : Nat) (x : Nat → Nat → Nat → Nat → ℝ) :
    Nat → Nat → ℝ :=
  fun n c => (∑ i ∈ Finset.range H, ∑ j ∈ Finset.range W, x n c i j) / (H * W)

/-- `nn.Conv2d(cin, cout, kernel_size=1)` on a 1x1 spatial map: a dense
affine map across channels. -/
noncomputable def conv1x1 (cin : Nat) (weight : Nat → Nat → ℝ) (bias : Nat → ℝ)
    (x : Nat → Nat → ℝ) : Nat → Nat → ℝ :=
  fun n c => (∑ i ∈ Finset.range cin, weight c i * x n i) + bias c

/-- Attention variant 1: pool, reduce to `C / 16` channels, `nn.ReLU`,
expand back to `C` channels, sigmoid. -/
noncomputable def attnVariant1 (C H W : Nat)
    (w1 : Nat → Nat → ℝ) (b1 : Nat → ℝ) (w2 : Nat → Nat → ℝ) (b2 : Nat → ℝ)
    (x : Nat → Nat → Nat → Nat → ℝ) : Nat → Nat → ℝ :=
  fun n c =>
    let p := adaptiveAvgPool1 H W x
    let reduced := conv1x1 C w1 b1 p
    let rectified := fun n2 c2 => max (reduced n2 c2) 0
    let expanded := conv1x1 (C / 16) w2 b2 rectified
    sigmoid (expanded n c)

/-- Attention variant 2: pool, depthwise (`groups = C`) 1x1 convolution,
sigmoid; each channel is scaled and shifted independently. -/
noncomputable def attnVariant2 (H W : Nat) (weight bias : Nat → ℝ)
    (x : Nat → Nat → Nat → Nat → ℝ) : Nat → Nat → ℝ :=
  fun n c => sigmoid (weight c * adaptiveAvgPool1 H W x n c + bias c)

/-- Attention variant 3: pool, dense 1x1 convolution, sigmoid. -/
noncomputable def attnVariant3 (C H W : Nat)
    (weight : Nat → Nat → ℝ) (bias : Nat → ℝ)
    (x : Nat → Nat → Nat → Nat → ℝ) : Nat → Nat → ℝ :=
  fun n c => sigmoid (conv1x1 C weight bias (adaptiveAvgPool1 H W x) n c)

/-- Construction-time data of `CDBasicBlock.__init__`: the structural fields
plus the conditionally created gating module. -/
structure CDBasicBlock where
  inPlanes : Nat
  outPlanes : Nat
  stride : Nat
  dropRate : ℚ
  activateBeforeResidual : Bool
  attn : Option AttnModule

/-- `CDBasicBlock.__init__` never fails: an unrecognized `attn_var` simply
creates no gating module. -/
def mkCDBasicBlock (inP outP stride : Nat) (dropRate : ℚ) (abr : Bool)
    (attnVar : Nat) : CDBasicBlock :=
  { inPlanes := inP
  , outPlanes := outP
  , stride := stride
  , dropRate := dropRate
  , activateBeforeResidual := abr
  , attn := mkAttn attnVar outP }

/-! ## The trigger transforms of `src/data/backdoor.py` -/

/-- Images as rational-valued functions of (row, column, channel), the
`H*W*C` ndarray layout used by the transforms. -/
abbrev Img := Nat → Nat → Nat → ℚ

/-- The numpy assignment `poison_img[j, k] = 255.0`: the scalar is broadcast
over the whole channel axis of the pixel. -/
def setPixel (img : Img) (j k : Nat) : Img :=
  fun j2 k2 c => if j2 = j ∧ k2 = k then 255 else img j2 k2 c

/-- `BadNets.add_trigger`: `width`/`height` are `img.shape[0]`/`img.shape[1]`,
and the double loop `for j in range(width - 1 - ts, width - 1)`,
`for k in range(height - 1 - ts, height - 1)` overwrites each visited pixel.
The method writes through `poison_img = img`, an alias of its input, and
returns that same array; the returned image is therefore the mutated input. -/
def addTrigger (ts width height : Nat) (img : Img) : Img :=
  (List.range' (width - 1 - ts) ((width - 1) - (width - 1 - ts))).foldl
    (fun acc j =>
      (List.range' (height - 1 - ts) ((height - 1) - (height - 1 - ts))).foldl
        (fun acc2 k => setPixel acc2 j k) acc)
    img

/-- Arguments `Blend.blend_trigger` can receive: an ndarray of some shape, or
a value of any other Python type (described by its type name). -/
inductive BlendArg where
  | array (shape : List Nat) (data : Img)
  | notArray (tyName : String)

/-- The two exceptions raised by `Blend.blend_trigger`. -/
inductive BlendError where
  | typeError (got : String)
  | valueError (shape : List Nat)

/-- `Blend.blend_trigger`: a non-ndarray input raises `TypeError`, an ndarray
whose number of axes is not exactly 3 raises `ValueError`; only then does the
PIL resize-and-blend pipeline run.  That pipeline (`Image.fromarray`,
`resize`, `Image.blend` with the stored trigger and alpha) is an external
collaborator, abstracted as the `blendImpl` parameter. -/
def blendTrigger (blendImpl : List Nat → Img → List Nat × Img)
    (arg : BlendArg) : Except BlendError (List Nat × Img) :=
  match arg with
  | BlendArg.notArray ty => Except.error (BlendError.typeError ty)
  | BlendArg.array shape data =>
      if shape.length ≠ 3 then Except.error (BlendError.valueError shape)
      else Except.ok (blendImpl shape data)

/-! ## Shape lemmas for the residual blocks and stages -/

theorem convOut_k3_p1 (h s : Nat) :
    convOut h 3 s 1 = (h - 1) / s + 1 := by
  unfold convOut
  rw [show h + 2 * 1 - 3 = h - 1 from by omega]

theorem convOut_k1_p0 (h s : Nat) :
    convOut h 1 s 0 = (h - 1) / s + 1 := by
  unfold convOut
  rw [show h + 2 * 0 - 1 = h - 1 from by omega]

theorem conv2dShape_eq (inP outP k s p b c h w : Nat)
    (hc : c = inP) (hh : k ≤ h + 2 * p) (hw : k ≤ w + 2 * p) :
    conv2dShape inP outP k s p [b, c, h, w]
      = some [b, outP, convOut h k s p, convOut w k s p] := by
  show (if c = inP ∧ k ≤ h + 2 * p ∧ k ≤ w + 2 * p then
          some [b, outP, convOut h k s p, convOut w k s p]
        else none) = some [b, outP, convOut h k s p, convOut w k s p]
  rw [if_pos ⟨hc, hh, hw⟩]

theorem conv3x3_s1_preserve (b c h w : Nat) (hh : 1 ≤ h) (hw : 1 ≤ w) :
    conv2dShape c c 3 1 1 [b, c, h, w] = some [b, c, h, w] := by
  rw [conv2dShape_eq c c 3 1 1 b c h w rfl (by omega) (by omega),
      convOut_k3_p1 h 1, convOut_k3_p1 w 1]
  rw [show (h - 1) / 1 + 1 = h from by omega, show (w - 1) / 1 + 1 = w from by omega]

theorem basicBlock_preserve (c b h w : Nat) (hh : 1 ≤ h) (hw : 1 ≤ w) :
    basicBlockShape c c 1 [b, c, h, w] = some [b, c, h, w] := by
  simp [basicBlockShape, conv3x3_s1_preserve b c h w hh hw, addShape]

theorem basicBlock_trans (inP outP stride b h w : Nat) (hne : inP ≠ outP)
    (hh : 1 ≤ h) (hw : 1 ≤ w) :
    basicBlockShape inP outP stride [b, inP, h, w]
      = some [b, outP, (h - 1) / stride + 1, (w - 1) / stride + 1] := by
  have e1 : conv2dShape inP outP 3 stride 1 [b, inP, h, w]
      = some [b, outP, (h - 1) / stride + 1, (w - 1) / stride + 1] := by
    rw [conv2dShape_eq inP outP 3 stride 1 b inP h w rfl (by omega) (by omega),
        convOut_k3_p1 h stride, convOut_k3_p1 w stride]
  have e2 : conv2dShape outP outP 3 1 1
        [b, outP, (h - 1) / stride + 1, (w - 1) / stride + 1]
      = some [b, outP, (h - 1) / stride + 1, (w - 1) / stride + 1] :=
    conv3x3_s1_preserve b outP _ _ (Nat.le_add_left 1 _) (Nat.le_add_left 1 _)
  have e3 : conv2dShape inP outP 1 stride 0 [b, inP, h, w]
      = some [b, outP, (h - 1) / stride + 1, (w - 1) / stride + 1] := by
    rw [conv2dShape_eq inP outP 1 stride 0 b inP h w rfl (by omega) (by omega),
        convOut_k1_p0 h stride, convOut_k1_p0 w stride]
  unfold basicBlockShape
  rw [e1, Option.some_bind, e2, Option.some_bind, if_neg hne, e3, Option.some_bind]
  simp [addShape]

theorem makeLayerCfgs_succ (m inP outP stride : Nat) (hin : inP ≠ 0) (hs : stride ≠ 0) :
    makeLayerCfgs (m + 1) inP outP stride
      = (inP, outP, stride) :: List.replicate m (outP, outP, 1) := by
  unfold makeLayerCfgs
  rw [List.range_succ_eq_map, List.map_cons, List.map_map]
  congr 1
  case _ => simp [pyTruthyAndOr, hin, hs]
  case _ =>
    apply List.eq_replicate_iff.mpr
    refine ⟨by simp, ?_⟩
    intro x hx
    simp only [List.mem_map, Function.comp] at hx
    obtain ⟨i, _, rfl⟩ := hx
    simp [pyTruthyAndOr]

theorem stageShape_replicate (m c b h w : Nat) (hh : 1 ≤ h) (hw : 1 ≤ w) :
    stageShape (List.replicate m (c, c, 1)) [b, c, h, w] = some [b, c, h, w] := by
  induction m with
  | zero => rfl
  | succ k ih =>
      rw [List.replicate_succ]
      unfold stageShape
      rw [basicBlock_preserve c b h w hh hw]
      exact ih

theorem stageShape_make (n inP outP stride b h w : Nat)
    (hn : 1 ≤ n) (hh : 1 ≤ h) (hw : 1 ≤ w)
    (hin : inP ≠ 0) (hout : outP ≠ 0) (hs : stride ≠ 0)
    (hcase : inP ≠ outP ∨ stride = 1) :
    stageShape (makeLayerCfgs n inP outP stride) [b, inP, h, w]
      = some [b, outP, (h - 1) / stride + 1, (w - 1) / stride + 1] := by
  obtain ⟨m, rfl⟩ : ∃ m, n = m + 1 := ⟨n - 1, by omega⟩
  rw [makeLayerCfgs_succ m inP outP stride hin hs]
  have hstep : basicBlockShape inP outP stride [b, inP, h, w]
      = some [b, outP, (h - 1) / stride + 1, (w - 1) / stride + 1] := by
    rcases hcase with hne | h1
    case _ => exact basicBlock_trans inP outP stride b h w hne hh hw
    case _ =>
      subst h1
      rcases eq_or_ne inP outP with rfl | hne
      case _ =>
        rw [basicBlock_preserve inP b h w hh hw]
        rw [show (h - 1) / 1 + 1 = h from by omega, show (w - 1) / 1 + 1 = w from by omega]
      case _ => exact basicBlock_trans inP outP 1 b h w hne hh hw
  unfold stageShape
  rw [hstep]
  exact stageShape_replicate m outP b _ _ (Nat.le_add_left 1 _) (Nat.le_add_left 1 _)

theorem attnShape_valid (attnVar outP b c h w : Nat)
    (hav : attnVar = 1 ∨ attnVar = 2 ∨ attnVar = 3) (hc : c = outP) :
    attnShape attnVar outP [b, c, h, w] = some [b, outP, 1, 1] := by
  have e1 : ∀ cin cout, conv2dShape cin cout 1 1 0 [b, cin, 1, 1] = some [b, cout, 1, 1] := by
    intro cin cout
    rw [conv2dShape_eq cin cout 1 1 0 b cin 1 1 rfl (by omega) (by omega)]
    norm_num [convOut]
  subst hc
  rcases hav with rfl | rfl | rfl
  case _ => simp [attnShape, mkAttn, avgPoolShape, e1]
  case _ => simp [attnShape, mkAttn, avgPoolShape, e1]
  case _ => simp [attnShape, mkAttn, avgPoolShape, e1]

theorem cdBlock_trans (attnVar inP outP stride b h w : Nat)
    (hav : attnVar = 1 ∨ attnVar = 2 ∨ attnVar = 3) (hne : inP ≠ outP)
    (hh : 1 ≤ h) (hw : 1 ≤ w) :
    cdBasicBlockShape attnVar inP outP stride [b, inP, h, w]
      = some ([b, outP, (h - 1) / stride + 1, (w - 1) / stride + 1], [b, outP, 1, 1]) := by
  have e1 : conv2dShape inP outP 3 stride 1 [b, inP, h, w]
      = some [b, outP, (h - 1) / stride + 1, (w - 1) / stride + 1] := by
    rw [conv2dShape_eq inP outP 3 stride 1 b inP h w rfl (by omega) (by omega),
        convOut_k3_p1 h stride, convOut_k3_p1 w stride]
  have e2 := conv3x3_s1_preserve b outP ((h - 1) / stride + 1) ((w - 1) / stride + 1)
    (Nat.le_add_left 1 _) (Nat.le_add_left 1 _)
  have e3 : conv2dShape inP outP 1 stride 0 [b, inP, h, w]
      = some [b, outP, (h - 1) / stride + 1, (w - 1) / stride + 1] := by
    rw [conv2dShape_eq inP outP 1 stride 0 b inP h w rfl (by omega) (by omega),
        convOut_k1_p0 h stride, convOut_k1_p0 w stride]
  have e4 := attnShape_valid attnVar outP b outP ((h - 1) / stride + 1) ((w - 1) / stride + 1) hav rfl
  unfold cdBasicBlockShape
  rw [e1, Option.some_bind, e2, Option.some_bind, e4, Option.some_bind]
  simp [mulBroadcastShape, hne, e3, addShape]

theorem cdBlock_preserve (attnVar c b h w : Nat)
    (hav : attnVar = 1 ∨ attnVar = 2 ∨ attnVar = 3) (hh : 1 ≤ h) (hw : 1 ≤ w) :
    cdBasicBlockShape attnVar c c 1 [b, c, h, w]
      = some ([b, c, h, w], [b, c, 1, 1]) := by
  have e1 := conv3x3_s1_preserve b c h w hh hw
  have e4 := attnShape_valid attnVar c b c h w hav rfl
  unfold cdBasicBlockShape
  rw [e1, Option.some_bind, e1, Option.some_bind, e4, Option.some_bind]
  simp [mulBroadcastShape, addShape]

theorem squeezeShape_mask (b c : Nat) (hb : b ≠ 1) (hc : c ≠ 1) :
    squeezeShape [b, c, 1, 1] = [b, c] := by
  simp [squeezeShape, hb, hc]

theorem squeezeShape_mask_batch1 (c : Nat) (hc : c ≠ 1) :
    squeezeShape [1, c, 1, 1] = [c] := by
  simp [squeezeShape, hc]

theorem pySliceStop_of_nonneg (len : Nat) (stop : Int) (h0 : 0 ≤ stop)
    (hle : stop ≤ (len : Int)) : pySliceStop len stop = stop.toNat := by
  unfold pySliceStop
  rw [if_neg (by omega)]
  omega

theorem collected_mask (wf b : Nat) (pfrac : ℚ) (hwf : 1 ≤ wf) (hb : b ≠ 1)
    (hpf : 0 < pfrac) :
    (if pfrac < 1 then
        sliceCols (pyInt (64 * (wf : ℚ) * pfrac)) (squeezeShape [b, 64 * wf, 1, 1])
      else some (squeezeShape [b, 64 * wf, 1, 1]))
      = some [b, collectW wf pfrac] := by
  have hc : 64 * wf ≠ 1 := by omega
  rw [squeezeShape_mask b (64 * wf) hb hc]
  by_cases hlt : pfrac < 1
  case pos =>
    have hq : (0 : ℚ) < 64 * (wf : ℚ) * pfrac := by
      have hw0 : (0 : ℚ) < (wf : ℚ) := by exact_mod_cast hwf
      positivity
    have hpy : pyInt (64 * (wf : ℚ) * pfrac) = ⌊64 * (wf : ℚ) * pfrac⌋ := by
      unfold pyInt
      rw [if_neg (by linarith)]
    have hfl0 : 0 ≤ ⌊64 * (wf : ℚ) * pfrac⌋ := Int.floor_nonneg.mpr (le_of_lt hq)
    have hfllt : ⌊64 * (wf : ℚ) * pfrac⌋ ≤ ((64 * wf : Nat) : Int) := by
      apply Int.le_of_lt_add_one
      apply Int.floor_lt.mpr
      push_cast
      have hw0 : (0 : ℚ) < (wf : ℚ) := by exact_mod_cast hwf
      nlinarith
    rw [if_pos hlt, collectW, if_pos hlt]
    show some (b :: pySliceStop (64 * wf) (pyInt (64 * (wf : ℚ) * pfrac)) :: [])
        = some [b, (⌊64 * (wf : ℚ) * pfrac⌋).toNat]
    rw [hpy, pySliceStop_of_nonneg (64 * wf) _ hfl0 hfllt]
  case neg =>
    rw [if_neg hlt, collectW, if_neg hlt]

theorem stage3Collect_replicate (attnVar wf b h w m : Nat) (pfrac : ℚ)
    (acc : List (List Nat))
    (hav : attnVar = 1 ∨ attnVar = 2 ∨ attnVar = 3) (hwf : 1 ≤ wf) (hb : b ≠ 1)
    (hh : 1 ≤ h) (hw : 1 ≤ w) (hpf : 0 < pfrac) :
    stage3Collect attnVar pfrac wf (List.replicate m (64 * wf, 64 * wf, 1))
        [b, 64 * wf, h, w] acc
      = some ([b, 64 * wf, h, w], acc ++ List.replicate m [b, collectW wf pfrac]) := by
  induction m generalizing acc with
  | zero => simp [stage3Collect]
  | succ k ih =>
      rw [List.replicate_succ]
      unfold stage3Collect
      simp only [cdBlock_preserve attnVar (64 * wf) b h w hav hh hw, Option.some_bind]
      simp only [collected_mask wf b pfrac hwf hb hpf, Option.some_bind]
      rw [ih]
      rw [List.replicate_succ]
      simp

theorem stage3Collect_make (attnVar wf n b h w : Nat) (pfrac : ℚ)
    (hav : attnVar = 1 ∨ attnVar = 2 ∨ attnVar = 3) (hwf : 1 ≤ wf) (hn : 1 ≤ n)
    (hb : b ≠ 1) (hh : 1 ≤ h) (hw : 1 ≤ w) (hpf : 0 < pfrac) :
    stage3Collect attnVar pfrac wf (makeLayerCfgs n (32 * wf) (64 * wf) 2)
        [b, 32 * wf, h, w] []
      = some ([b, 64 * wf, (h - 1) / 2 + 1, (w - 1) / 2 + 1],
              List.replicate n [b, collectW wf pfrac]) := by
  obtain ⟨m, rfl⟩ : ∃ m, n = m + 1 := ⟨n - 1, by omega⟩
  rw [makeLayerCfgs_succ m (32 * wf) (64 * wf) 2 (by omega) (by omega)]
  unfold stage3Collect
  simp only [cdBlock_trans attnVar (32 * wf) (64 * wf) 2 b h w hav (by omega) hh hw,
    Option.some_bind]
  simp only [collected_mask wf b pfrac hwf hb hpf, Option.some_bind]
  rw [stage3Collect_replicate attnVar wf b _ _ m pfrac _ hav hwf hb
      (Nat.le_add_left 1 _) (Nat.le_add_left 1 _) hpf]
  rw [List.replicate_succ]
  simp

theorem catDim1Go_replicate (b k m c0 : Nat) :
    catDim1Go [b, c0] (List.replicate m [b, k]) = some [b, c0 + m * k] := by
  induction m generalizing c0 with
  | zero => simp [catDim1Go]
  | succ j ih =>
      rw [List.replicate_succ]
      unfold catDim1Go
      simp only [catStep, and_self, if_true, Option.some_bind]
      rw [ih (c0 + k)]
      congr 2
      rw [Nat.add_assoc, Nat.succ_mul, Nat.add_comm (j * k) k]

theorem catDim1_replicate (b k n : Nat) (hn : 1 ≤ n) :
    catDim1 (List.replicate n [b, k]) = some [b, n * k] := by
  obtain ⟨m, rfl⟩ : ∃ m, n = m + 1 := ⟨n - 1, by omega⟩
  rw [List.replicate_succ]
  show (if 2 ≤ ([b, k] : List Nat).length then catDim1Go [b, k] (List.replicate m [b, k])
        else none) = some [b, (m + 1) * k]
  rw [if_pos (by simp)]
  rw [catDim1Go_replicate b k m k]
  congr 2
  rw [Nat.succ_mul, Nat.add_comm (m * k) k]

theorem mkCDWideResNet_valid (numClasses widenFactor attnVar : Nat) (dropRate pfrac : ℚ)
    (n : Nat) :
    mkCDWideResNet numClasses (6 * (n : Int) + 4) widenFactor dropRate attnVar pfrac
      = some { numClasses := numClasses
             , widenFactor := widenFactor
             , attnVar := attnVar
             , pfrac := pfrac
             , dropRate := dropRate
             , block1 := makeLayerCfgs n 16 (16 * widenFactor) 1
             , block2 := makeLayerCfgs n (16 * widenFactor) (32 * widenFactor) 2
             , block3 := makeLayerCfgs n (32 * widenFactor) (64 * widenFactor) 2
             , channels := 64 * widenFactor } := by
  unfold mkCDWideResNet
  rw [show (6 * (n : Int) + 4) - 4 = 6 * (n : Int) from by ring]
  rw [if_pos (Int.mul_emod_right 6 n)]
  rw [Int.mul_ediv_cancel_left (n : Int) (by norm_num)]
  rw [Int.toNat_natCast]

/-- Full shape computation of `CDWideResNet.forward` for a valid
configuration: the general form behind the claims about logits and gate
widths. -/
theorem cdwrnForwardInternal_eq (numClasses widenFactor attnVar n b h w : Nat)
    (dropRate pfrac : ℚ) (net : CDWideResNet)
    (hmk : mkCDWideResNet numClasses (6 * (n : Int) + 4) widenFactor dropRate attnVar pfrac
            = some net)
    (hav : attnVar = 1 ∨ attnVar = 2 ∨ attnVar = 3) (hwf : 1 ≤ widenFactor)
    (hn : 1 ≤ n) (hb : b ≠ 1) (hh : 1 ≤ h) (hw : 1 ≤ w) (hpf : 0 < pfrac) :
    cdwrnForwardInternal net [b, 3, h, w]
      = some ([b, numClasses], [b, n * collectW widenFactor pfrac]) := by
  rw [mkCDWideResNet_valid numClasses widenFactor attnVar dropRate pfrac n] at hmk
  obtain rfl : net = _ := (Option.some.injEq _ _).mp hmk.symm
  unfold cdwrnForwardInternal
  have e0 : conv2dShape 3 16 3 1 1 [b, 3, h, w] = some [b, 16, h, w] := by
    rw [conv2dShape_eq 3 16 3 1 1 b 3 h w rfl (by omega) (by omega),
        convOut_k3_p1 h 1, convOut_k3_p1 w 1]
    rw [show (h - 1) / 1 + 1 = h from by omega, show (w - 1) / 1 + 1 = w from by omega]
  have e1 : stageShape (makeLayerCfgs n 16 (16 * widenFactor) 1) [b, 16, h, w]
      = some [b, 16 * widenFactor, h, w] := by
    rw [stageShape_make n 16 (16 * widenFactor) 1 b h w hn hh hw (by omega) (by omega)
        (by omega) (Or.inr rfl)]
    rw [show (h - 1) / 1 + 1 = h from by omega, show (w - 1) / 1 + 1 = w from by omega]
  have e2 : stageShape (makeLayerCfgs n (16 * widenFactor) (32 * widenFactor) 2)
        [b, 16 * widenFactor, h, w]
      = some [b, 32 * widenFactor, (h - 1) / 2 + 1, (w - 1) / 2 + 1] :=
    stageShape_make n (16 * widenFactor) (32 * widenFactor) 2 b h w hn hh hw
      (by omega) (by omega) (by omega) (Or.inl (by omega))
  have e3 := stage3Collect_make attnVar widenFactor n b ((h - 1) / 2 + 1) ((w - 1) / 2 + 1)
    pfrac hav hwf hn hb (Nat.le_add_left 1 _) (Nat.le_add_left 1 _) hpf
  have e4 := catDim1_replicate b (collectW widenFactor pfrac) n hn
  simp only [e0, Option.some_bind, e1, e2, e3, e4]
  have e5 : bnShape (64 * widenFactor)
        [b, 64 * widenFactor, ((h - 1) / 2 + 1 - 1) / 2 + 1, ((w - 1) / 2 + 1 - 1) / 2 + 1]
      = some [b, 64 * widenFactor, ((h - 1) / 2 + 1 - 1) / 2 + 1, ((w - 1) / 2 + 1 - 1) / 2 + 1] := by
    unfold bnShape
    simp
  have e6 : viewFlat (64 * widenFactor) [b, 64 * widenFactor, 1, 1]
      = some [b, 64 * widenFactor] := by
    unfold viewFlat
    have hp : (([b, 64 * widenFactor, 1, 1] : List Nat).foldl (· * ·) 1) = b * (64 * widenFactor) := by
      show 1 * b * (64 * widenFactor) * 1 * 1 = b * (64 * widenFactor)
      ring
    rw [if_pos ⟨by omega, by rw [hp]; exact Nat.mul_mod_left b (64 * widenFactor)⟩, hp]
    rw [Nat.mul_div_cancel b (by omega : 0 < 64 * widenFactor)]
  have e7 : linearShape (64 * widenFactor) numClasses [b, 64 * widenFactor]
      = some [b, numClasses] := by
    unfold linearShape
    simp
  simp only [e5, Option.some_bind, avgPoolShape, e6, e7]
  rfl

theorem mkAttn_unknown (attnVar outP : Nat)
    (h1 : attnVar ≠ 1) (h2 : attnVar ≠ 2) (h3 : attnVar ≠ 3) :
    mkAttn attnVar outP = none := by
  unfold mkAttn
  rw [if_neg h1, if_neg h2, if_neg h3]

theorem attnShape_unknown (attnVar outP : Nat) (s : List Nat)
    (h1 : attnVar ≠ 1) (h2 : attnVar ≠ 2) (h3 : attnVar ≠ 3) :
    attnShape attnVar outP s = none := by
  unfold attnShape
  rw [mkAttn_unknown attnVar outP h1 h2 h3]

theorem sigmoid_mem_Ioo (t : ℝ) : 0 < sigmoid t ∧ sigmoid t < 1 := by
  unfold sigmoid
  have he : 0 < Real.exp (-t) := Real.exp_pos _
  constructor
  case left => positivity
  case right =>
    rw [div_lt_one (by linarith)]
    linarith

/-! ## The claims -/

/-- C1: the claim says `CDWideResNet.forward` returns the pair
(logits, concatenated gate tensor).  The code computes the concatenated gate
tensor — for `CDWRN28(num_classes=10, widen_factor=2)` on a `(4,3,32,32)`
batch its shape is `(4,512)` — binds it to the local `mask`, and then
executes `return logits`, so only the `(4,10)` logits tensor leaves the
function.  This theorem evaluates both the full body and the actual return
value at that input. -/
theorem c1_forward_drops_gate_tensor :
    (mkCDWideResNet 10 28 2 0 1 1).bind (fun net => cdwrnForwardInternal net [4, 3, 32, 32])
      = some ([4, 10], [4, 512])
    ∧ (mkCDWideResNet 10 28 2 0 1 1).bind (fun net => cdwrnForward net [4, 3, 32, 32])
      = some [4, 10] := by
  constructor
  case left => decide
  case right => decide

/-- C2 counterexample: the claim instantiates its own width formula wrongly —
it asserts the concatenated gate tensor of `CDWRN28(num_classes=10,
widen_factor=2)` on a `(4,3,32,32)` batch has shape `(4, 4*256)`, but
`64 * widen_factor = 128`, and the computed gate tensor has shape
`(4, 4*128) = (4, 512)`, not `(4, 1024)`. -/
theorem c2_gate_width_counterexample :
    ¬ ((mkCDWideResNet 10 28 2 0 1 1).bind (fun net => cdwrnForwardInternal net [4, 3, 32, 32])
        = some ([4, 10], [4, 4 * 256])) := by decide

/-- C2 (amended): for every valid configuration (depth `6n+4` with `n ≥ 1`
stage-3 blocks, `widen_factor ≥ 1`, a recognized attention variant,
`partial_fraction > 0`) and every input batch `(b,3,h,w)` with `b ≥ 2`,
`h,w ≥ 1`, the gate tensor concatenated over stage3 has width
(number of blocks in stage3) × (64·widen_factor if partial_fraction ≥ 1 else
floor(64·widen_factor·partial_fraction)), and the logits have shape
`(b, num_classes)`; in particular `CDWRN28(num_classes=10, widen_factor=2)`
on a batch of 4 images of shape `(3,32,32)` yields logits of shape `(4,10)`
and a gate tensor of shape `(4, 4·128)` with `128 = 64·widen_factor`. -/
theorem c2_gate_width (numClasses widenFactor attnVar n b h w : Nat)
    (dropRate pfrac : ℚ) (net : CDWideResNet)
    (hmk : mkCDWideResNet numClasses (6 * (n : Int) + 4) widenFactor dropRate attnVar pfrac
            = some net)
    (hav : attnVar = 1 ∨ attnVar = 2 ∨ attnVar = 3) (hwf : 1 ≤ widenFactor)
    (hn : 1 ≤ n) (hb : 2 ≤ b) (hh : 1 ≤ h) (hw : 1 ≤ w) (hpf : 0 < pfrac) :
    cdwrnForwardInternal net [b, 3, h, w]
      = some ([b, numClasses],
              [b, net.block3.length *
                    (if 1 ≤ pfrac then 64 * widenFactor
                     else (⌊64 * (widenFactor : ℚ) * pfrac⌋).toNat)]) := by
  have hmain := cdwrnForwardInternal_eq numClasses widenFactor attnVar n b h w
    dropRate pfrac net hmk hav hwf hn (by omega) hh hw hpf
  rw [mkCDWideResNet_valid numClasses widenFactor attnVar dropRate pfrac n] at hmk
  obtain rfl : net = _ := (Option.some.injEq _ _).mp hmk.symm
  rw [hmain]
  have hlen : (makeLayerCfgs n (32 * widenFactor) (64 * widenFactor) 2).length = n := by
    simp [makeLayerCfgs]
  have hcw : collectW widenFactor pfrac
      = if 1 ≤ pfrac then 64 * widenFactor
        else (⌊64 * (widenFactor : ℚ) * pfrac⌋).toNat := by
    unfold collectW
    rcases lt_or_le pfrac 1 with hlt | hge
    case inl => rw [if_pos hlt, if_neg (by linarith)]
    case inr => rw [if_neg (by linarith), if_pos hge]
  rw [show ({ numClasses := numClasses, widenFactor := widenFactor, attnVar := attnVar
            , pfrac := pfrac, dropRate := dropRate
            , block1 := makeLayerCfgs n 16 (16 * widenFactor) 1
            , block2 := makeLayerCfgs n (16 * widenFactor) (32 * widenFactor) 2
            , block3 := makeLayerCfgs n (32 * widenFactor) (64 * widenFactor) 2
            , channels := 64 * widenFactor } : CDWideResNet).block3
        = makeLayerCfgs n (32 * widenFactor) (64 * widenFactor) 2 from rfl]
  rw [hlen, hcw]

/-- C2 witness: the amended concrete instance, with every hypothesis
discharged at `num_classes = 10`, `widen_factor = 2`, `attn_var = 1`,
`n = 4` (depth 28), `partial = 1`, batch `(4,3,32,32)`. -/
theorem c2_gate_width_witness :
    cdwrnForwardInternal
      { numClasses := 10, widenFactor := 2, attnVar := 1, pfrac := 1, dropRate := 0
      , block1 := makeLayerCfgs 4 16 (16 * 2) 1
      , block2 := makeLayerCfgs 4 (16 * 2) (32 * 2) 2
      , block3 := makeLayerCfgs 4 (32 * 2) (64 * 2) 2
      , channels := 64 * 2 } [4, 3, 32, 32]
      = some ([4, 10],
              [4, (makeLayerCfgs 4 (32 * 2) (64 * 2) 2).length *
                    (if (1 : ℚ) ≤ 1 then 64 * 2
                     else (⌊64 * ((2 : Nat) : ℚ) * 1⌋).toNat)]) :=
  c2_gate_width 10 2 1 4 4 32 32 0 1 _ (by decide) (Or.inl rfl) (by decide) (by decide)
    (by decide) (by decide) (by decide) (by decide)

/-- C3 counterexample: in a plain `BasicBlock` with `in_channels ≠
out_channels` and `activate_before_residual = false` the claim predicts
output `convShortcut(x) + conv2(relu2(bn2(conv1(relu1(bn1(x)))))))`.
Instantiating the opaque modules over ℤ with `bn1 = (+1)`,
`conv1 = (2 * ·)`, everything else the identity, `add = (+)` and `x = 0`,
the code produces `0` while the claim predicts `2`: the first convolution
receives the raw `x`, not the normalized-and-activated value. -/
theorem c3_counterexample :
    ¬ (basicBlockForward false false (fun t : ℤ => t + 1) id (fun t => 2 * t) id id id id
         0 id (· + ·) 0
       = id (0 : ℤ) + id (id (id (2 * id ((0 : ℤ) + 1))))) := by decide

/-- C3 (amended): in a plain Residual Block with `in_channels ≠ out_channels`
(so `equalInOut = false`) and `activate_before_residual = false`, the raw
input `x` feeds both the residual path's first 3×3 convolution and the
shortcut projection; the normalized-and-activated value `relu1(bn1(x))` is
computed but used by neither path. -/
theorem c3_raw_x_feeds_residual_and_shortcut {T : Type}
    (bn1 relu1 conv1 bn2 relu2 conv2 convShortcut : T → T)
    (dropRate : ℚ) (dropout : T → T) (add : T → T → T) (x : T) :
    basicBlockForward false false bn1 relu1 conv1 bn2 relu2 conv2 convShortcut
        dropRate dropout add x
      = add (convShortcut x)
          (conv2 (if 0 < dropRate then dropout (relu2 (bn2 (conv1 x)))
                  else relu2 (bn2 (conv1 x)))) := rfl

/-- C4 counterexample: the gate tensor returned by `CDBasicBlock.forward`
still has shape `(B, C, 1, 1)` — for a stage-3 transition block with
`attn_var = 1` on a `(4,64,16,16)` input it is `(4,128,1,1)`, not the
squeezed `(B, C) = (4,128)` shape the claim asserts (the squeeze happens in
the caller, `CDWideResNet.forward`). -/
theorem c4_counterexample :
    ¬ ((cdBasicBlockShape 1 64 128 2 [4, 64, 16, 16]).map Prod.snd = some [4, 128]) := by
  decide

/-- C4 (amended): for every input `x`, the Attention-Gated Residual Block
returns the pair `(shortcut(x) + (out ⊙ gate), gate)`, where `out` is the
post-conv2 intermediate tensor and the `(B,C,1,1)` gate is broadcast over
the spatial dimensions before the element-wise multiplication and residual
addition — but the returned gate is the raw `(B,C,1,1)` tensor; the squeeze
to `(B,C)` is performed afterwards by the Backbone Network's forward loop. -/
theorem c4_block_returns_gated_sum_and_raw_gate :
    (∀ (equalInOut : Bool) (bn1 relu1 conv1 bn2 relu2 conv2 convShortcut : T4 → T4)
       (dropRate : ℚ) (dropout : T4 → T4) (attn : T4 → T4) (x : T4),
       cdBasicBlockForward equalInOut false bn1 relu1 conv1 bn2 relu2 conv2 convShortcut
           dropRate dropout attn x
         = (t4add (if equalInOut then x else convShortcut x)
             (t4mulBroadcast
               (conv2 (if 0 < dropRate
                       then dropout (relu2 (bn2 (conv1 (if equalInOut then relu1 (bn1 x) else x))))
                       else relu2 (bn2 (conv1 (if equalInOut then relu1 (bn1 x) else x)))))
               (attn (conv2 (if 0 < dropRate
                       then dropout (relu2 (bn2 (conv1 (if equalInOut then relu1 (bn1 x) else x))))
                       else relu2 (bn2 (conv1 (if equalInOut then relu1 (bn1 x) else x))))))),
            attn (conv2 (if 0 < dropRate
                       then dropout (relu2 (bn2 (conv1 (if equalInOut then relu1 (bn1 x) else x))))
                       else relu2 (bn2 (conv1 (if equalInOut then relu1 (bn1 x) else x)))))))
    ∧ (cdBasicBlockShape 1 64 128 2 [4, 64, 16, 16]).map Prod.snd = some [4, 128, 1, 1]
    ∧ squeezeShape [4, 128, 1, 1] = [4, 128] := by
  refine ⟨?_, by decide, by decide⟩
  intro equalInOut bn1 relu1 conv1 bn2 relu2 conv2 convShortcut dropRate dropout attn x
  cases equalInOut
  case false => rfl
  case true => rfl

/-- C5: the per-block gate squeeze in `CDWideResNet.forward` removes every
size-1 axis of the `(B, 64·wf, 1, 1)` gate produced by a stage-3 block: for
`B ≥ 2` it yields the `(B, C)` shape, but for `B = 1` the batch axis is
collapsed as well, yielding shape `(C,)`. -/
theorem c5_squeeze_collapses_singleton_batch (attnVar wf b h w : Nat)
    (hav : attnVar = 1 ∨ attnVar = 2 ∨ attnVar = 3) (hwf : 1 ≤ wf)
    (hh : 1 ≤ h) (hw : 1 ≤ w) :
    (2 ≤ b →
      (cdBasicBlockShape attnVar (32 * wf) (64 * wf) 2 [b, 32 * wf, h, w]).map
          (fun om => squeezeShape om.2)
        = some [b, 64 * wf])
    ∧ (b = 1 →
      (cdBasicBlockShape attnVar (32 * wf) (64 * wf) 2 [b, 32 * wf, h, w]).map
          (fun om => squeezeShape om.2)
        = some [64 * wf]) := by
  have hmask := cdBlock_trans attnVar (32 * wf) (64 * wf) 2 b h w hav (by omega) hh hw
  constructor
  case left =>
    intro hb
    rw [hmask]
    simp [squeezeShape_mask b (64 * wf) (by omega) (by omega)]
  case right =>
    intro hb
    subst hb
    rw [hmask]
    simp [squeezeShape_mask_batch1 (64 * wf) (by omega)]

/-- C5 witness: both squeeze behaviours at concrete inputs — batch 4 keeps
the batch axis, batch 1 loses it. -/
theorem c5_squeeze_witness :
    (cdBasicBlockShape 1 (32 * 2) (64 * 2) 2 [4, 32 * 2, 16, 16]).map
        (fun om => squeezeShape om.2) = some [4, 64 * 2]
    ∧ (cdBasicBlockShape 1 (32 * 2) (64 * 2) 2 [1, 32 * 2, 16, 16]).map
        (fun om => squeezeShape om.2) = some [64 * 2] :=
  ⟨(c5_squeeze_collapses_singleton_batch 1 2 4 16 16 (Or.inl rfl) (by decide)
      (by decide) (by decide)).1 (by decide),
   (c5_squeeze_collapses_singleton_batch 1 2 1 16 16 (Or.inl rfl) (by decide)
      (by decide) (by decide)).2 rfl⟩

/-- C6: `BadNets.add_trigger` on a 10×10×3 all-zero image with
`trigger_size = 3` sets exactly the pixels with row and column in `6..8`
(0-indexed, excluding row/column 9) to 255 in every channel and leaves every
other pixel 0.  The method writes through `poison_img = img`, an alias of
its argument, so the array it returns is the mutated input itself; the
embedding returns that final array state. -/
theorem c6_badnets_trigger_pattern (j k c : Nat) :
    addTrigger 3 10 10 (fun _ _ _ => 0) j k c
      = if 6 ≤ j ∧ j ≤ 8 ∧ 6 ≤ k ∧ k ≤ 8 then 255 else 0 := by
  simp only [addTrigger, List.range']
  norm_num
  simp only [List.foldl, setPixel]
  split_ifs <;> first | rfl | omega

/-- C7: `Blend.blend_trigger` raises `TypeError` for every non-ndarray
input and `ValueError` for every ndarray whose number of axes is not 3,
independently of the blending collaborator — so a 2-d `(H,W)` array fails
before any blending is performed. -/
theorem c7_blend_input_validation :
    (∀ (blendImpl : List Nat → Img → List Nat × Img) (ty : String),
        blendTrigger blendImpl (BlendArg.notArray ty)
          = Except.error (BlendError.typeError ty))
    ∧ (∀ (blendImpl : List Nat → Img → List Nat × Img) (shape : List Nat) (data : Img),
        shape.length ≠ 3 →
        blendTrigger blendImpl (BlendArg.array shape data)
          = Except.error (BlendError.valueError shape)) := by
  constructor
  case left => intro blendImpl ty; rfl
  case right =>
    intro blendImpl shape data hlen
    show (if shape.length ≠ 3 then Except.error (BlendError.valueError shape)
          else Except.ok (blendImpl shape data)) = Except.error (BlendError.valueError shape)
    rw [if_pos hlen]

/-- C7 witness: a 2-d `(10,10)` array raises the shape error, whatever the
blending collaborator would have computed. -/
theorem c7_blend_witness :
    ([10, 10] : List Nat).length ≠ 3
    ∧ blendTrigger (fun shape data => (shape, data))
        (BlendArg.array [10, 10] (fun _ _ _ => 0))
        = Except.error (BlendError.valueError [10, 10]) :=
  ⟨by decide, c7_blend_input_validation.2 (fun shape data => (shape, data)) [10, 10]
      (fun _ _ _ => 0) (by decide)⟩

/-- C8: for an `attn_var` outside `{1,2,3}`, `CDBasicBlock.__init__`
succeeds but creates no gating module (`attn = none`), and the later
`forward` fails at `self.attn(out)` — the shape semantics of the forward
pass is `none` for every input — rather than failing at construction. -/
theorem c8_unknown_attn_variant (attnVar inP outP stride : Nat) (dropRate : ℚ)
    (abr : Bool) (s : List Nat)
    (h1 : attnVar ≠ 1) (h2 : attnVar ≠ 2) (h3 : attnVar ≠ 3) :
    (mkCDBasicBlock inP outP stride dropRate abr attnVar).attn = none
    ∧ cdBasicBlockShape attnVar inP outP stride s = none := by
  constructor
  case left =>
    show mkAttn attnVar outP = none
    exact mkAttn_unknown attnVar outP h1 h2 h3
  case right =>
    rcases hc1 : conv2dShape inP outP 3 stride 1 s with _ | r1
    case none => simp [cdBasicBlockShape, hc1]
    case some =>
      rcases hc2 : conv2dShape outP outP 3 1 1 r1 with _ | r2
      case none => simp [cdBasicBlockShape, hc1, hc2]
      case some =>
        simp [cdBasicBlockShape, hc1, hc2, attnShape_unknown attnVar outP r2 h1 h2 h3]

/-- C8 witness: `attn_var = 4` on a stage-3-sized block — construction
produces a block with no gating module and the forward pass fails. -/
theorem c8_unknown_attn_witness :
    (4 : Nat) ≠ 1 ∧ (4 : Nat) ≠ 2 ∧ (4 : Nat) ≠ 3
    ∧ (mkCDBasicBlock 64 128 2 0 false 4).attn = none
    ∧ cdBasicBlockShape 4 64 128 2 [4, 64, 16, 16] = none := by
  have h := c8_unknown_attn_variant 4 64 128 2 0 false [4, 64, 16, 16]
    (by decide) (by decide) (by decide)
  exact ⟨by decide, by decide, by decide, h.1, h.2⟩

/-- C9: constructing the Backbone Network succeeds exactly when
`(depth - 4) % 6 = 0` — the assertion in `CDWideResNet.__init__` is the only
construction-time failure — and in particular `depth = 27` fails at
construction time. -/
theorem c9_depth_assertion :
    (∀ (numClasses : Nat) (depth : Int) (widenFactor : Nat) (dropRate : ℚ)
       (attnVar : Nat) (pfrac : ℚ),
        (mkCDWideResNet numClasses depth widenFactor dropRate attnVar pfrac).isSome
          ↔ (depth - 4) % 6 = 0)
    ∧ mkCDWideResNet 10 27 2 0 1 1 = none := by
  constructor
  case left =>
    intro numClasses depth widenFactor dropRate attnVar pfrac
    unfold mkCDWideResNet
    by_cases hd : (depth - 4) % 6 = 0
    case pos => simp [hd]
    case neg => simp [hd]
  case right => decide

/-- C10: every gate value produced by any of the three attention pipelines
is strictly between 0 and 1, per batch element and per channel, for every
input and every choice of convolution weights and biases: each pipeline ends
in a sigmoid. -/
theorem c10_gate_values_in_open_unit_interval :
    (∀ (C H W : Nat) (w1 : Nat → Nat → ℝ) (b1 : Nat → ℝ) (w2 : Nat → Nat → ℝ)
       (b2 : Nat → ℝ) (x : Nat → Nat → Nat → Nat → ℝ) (n c : Nat),
        0 < attnVariant1 C H W w1 b1 w2 b2 x n c ∧ attnVariant1 C H W w1 b1 w2 b2 x n c < 1)
    ∧ (∀ (H W : Nat) (weight bias : Nat → ℝ) (x : Nat → Nat → Nat → Nat → ℝ) (n c : Nat),
        0 < attnVariant2 H W weight bias x n c ∧ attnVariant2 H W weight bias x n c < 1)
    ∧ (∀ (C H W : Nat) (weight : Nat → Nat → ℝ) (bias : Nat → ℝ)
        (x : Nat → Nat → Nat → Nat → ℝ) (n c : Nat),
        0 < attnVariant3 C H W weight bias x n c ∧ attnVariant3 C H W weight bias x n c < 1) := by
  refine ⟨?_, ?_, ?_⟩
  case _ =>
    intro C H W w1 b1 w2 b2 x n c
    exact sigmoid_mem_Ioo _
  case _ =>
    intro H W weight bias x n c
    exact sigmoid_mem_Ioo _
  case _ =>
    intro C H W weight bias x n c
    exact sigmoid_mem_Ioo _
